import Mathlib

/-!
Verification of the apigen framework-detection and extraction pipeline.

This file is a shallow embedding, in Lean, of the parts of the apigen
code base (TypeScript) that the verified properties talk about:

* the shared data model enums and records (`src/core/types.ts`),
* the `BaseExtractor` helpers `normalizePath`, `extractPathParams`,
  `parseParameterLocation`, `parseSchemaType` (`src/extractors/base.ts`),
* the OpenAPI extractor's endpoint construction, parameter/response
  conversion, grouping-by-tag and two-strategy spec parsing
  (`src/extractors/openapi.ts`),
* the FastAPI extractor's `routeToEndpoint` (`src/extractors/python/fastapi.ts`),
* the Django REST extractor's `generateViewSetRoutes`,
* the `ProjectDetector` scoring and selection logic (`src/core/orchestrator.ts`).

Strings are modelled as Lean `String` / `List Char`; JavaScript `Map`s
are modelled as association lists preserving insertion order (with
`set` keeping the original position of an existing key, as JS `Map.set`
does).  Record fields of the source that no verified property depends
on (loggers, descriptions of auth schemes, schema constraint fields,
examples carried as opaque JS values) are omitted or reduced to the
fields actually inspected; every function below is otherwise a direct
transcription of the corresponding TypeScript function.
-/

namespace Apigen

/-- HTTP method enum, from `src/core/types.ts` (`enum HttpMethod`). -/
inductive HttpMethod where
  | GET
  | POST
  | PUT
  | DELETE
  | PATCH
  | OPTIONS
  | HEAD
deriving DecidableEq, Repr

/-- Parameter location enum, from `src/core/types.ts` (`enum ParameterLocation`). -/
inductive ParameterLocation where
  | PATH
  | QUERY
  | HEADER
  | COOKIE
deriving DecidableEq, Repr

/-- Schema type enum, from `src/core/types.ts` (`enum SchemaType`). -/
inductive SchemaType where
  | STRING
  | NUMBER
  | INTEGER
  | BOOLEAN
  | ARRAY
  | OBJECT
  | NULL
deriving DecidableEq, Repr

/-- Project/framework type enum, from `src/core/types.ts` (`enum ProjectType`). -/
inductive ProjectType where
  | OPENAPI
  | FASTAPI
  | FLASK
  | DJANGO_REST
  | SPRING_BOOT
  | ASPNET_CORE
  | EXPRESS
  | UNKNOWN
deriving DecidableEq, Repr

/-- Schema node.  The source's `ApiSchema` is a large record of optional
constraint fields; the verified properties only inspect the `type` tag,
so only that field is carried here. -/
structure ApiSchema where
  type : SchemaType
deriving DecidableEq, Repr

/-- One API parameter (`interface ApiParameter` in `src/core/types.ts`).
The source field `in` is a Lean keyword and is called `location` here. -/
structure ApiParameter where
  name : String
  location : ParameterLocation
  required : Bool
  schema : ApiSchema
deriving DecidableEq, Repr

/-- Request body (`interface ApiRequestBody`). -/
structure ApiRequestBody where
  required : Bool
  contentType : String
  schema : ApiSchema
deriving DecidableEq, Repr

/-- Response (`interface ApiResponse`). -/
structure ApiResponse where
  statusCode : Int
  description : String
  contentType : Option String := none
  schema : Option ApiSchema := none
deriving DecidableEq, Repr

/-- One HTTP endpoint (`interface ApiEndpoint`). -/
structure ApiEndpoint where
  method : HttpMethod
  path : String
  summary : Option String := none
  description : Option String := none
  operationId : Option String := none
  tags : Option (List String) := none
  parameters : List ApiParameter := []
  requestBody : Option ApiRequestBody := none
  responses : List ApiResponse := []
  deprecated : Option Bool := none
deriving DecidableEq, Repr

/-- A named group of endpoints (`interface ApiGroup`). -/
structure ApiGroup where
  name : String
  description : Option String := none
  endpoints : List ApiEndpoint
deriving DecidableEq, Repr

/-- JS `toLowerCase()`, idealized to per-character ASCII lowering
(Lean's `String.toLower` does the same but through an accessor the
kernel cannot evaluate, so the character-list form is used).  Real JS
performs full Unicode case mapping — e.g. U+212A KELVIN SIGN lowers to
`k` — so this model agrees with JS only on inputs whose lowercase form
is reached by ASCII lowering; `parseParameterLocationJs` below keeps
that step abstract where the divergence matters. -/
def toLowerString (s : String) : String :=
  ⟨s.data.map Char.toLower⟩

/-- JS `toUpperCase()`, per-character (see `toLowerString`). -/
def toUpperString (s : String) : String :=
  ⟨s.data.map Char.toUpper⟩

/-- JS `trim()`: strip leading and trailing whitespace. -/
def trimString (s : String) : String :=
  ⟨((s.data.dropWhile Char.isWhitespace).reverse.dropWhile Char.isWhitespace).reverse⟩

namespace BaseExtractor

/-- The third step of `BaseExtractor.normalizePath`
(`normalized.replace(/\/+/g, '/')`): every maximal run of slashes is
collapsed to a single slash. -/
def collapseSlashes : List Char → List Char
  | [] => []
  | [c] => [c]
  | a :: b :: rest =>
    if a = '/' ∧ b = '/' then collapseSlashes (b :: rest)
    else a :: collapseSlashes (b :: rest)

/-- `BaseExtractor.normalizePath` on character lists
(`src/extractors/base.ts`, lines 278-295): add a leading slash if
missing, then drop one trailing slash when the string is longer than
one character, then collapse repeated slashes. -/
def normalizePathList (cs : List Char) : List Char :=
  let s1 := if cs.head? = some '/' then cs else '/' :: cs
  let s2 := if s1.length > 1 ∧ s1.getLast? = some '/' then s1.dropLast else s1
  collapseSlashes s2

/-- `BaseExtractor.normalizePath` on strings. -/
def normalizePath (path : String) : String :=
  ⟨normalizePathList path.data⟩

/-- The scanning loop of the global regex `\{([^}]+)\}` used by
`BaseExtractor.extractPathParams`.  The second argument is the capture
state: `none` outside a candidate match, `some buf` after an opening
brace with `buf` the (closing-brace-free) characters read so far.  A
closing brace emits a non-empty capture and resumes scanning after it;
an empty capture (`{}`) matches nothing, exactly as the regex's
one-or-more quantifier. -/
def scanPlaceholders : List Char → Option (List Char) → List (List Char)
  | [], _ => []
  | c :: rest, none =>
    if c = '{' then scanPlaceholders rest (some [])
    else scanPlaceholders rest none
  | c :: rest, some buf =>
    if c = '}' then
      if buf = [] then scanPlaceholders rest none
      else buf :: scanPlaceholders rest none
    else scanPlaceholders rest (some (buf ++ [c]))

/-- `BaseExtractor.extractPathParams` on character lists: every
occurrence of a brace-delimited, non-empty, closing-brace-free token
yields its contents, scanning left to right and resuming after each
match. -/
def extractPathParamsList (cs : List Char) : List (List Char) :=
  scanPlaceholders cs none

/-- `BaseExtractor.extractPathParams` on strings. -/
def extractPathParams (path : String) : List String :=
  (extractPathParamsList path.data).map (fun cs => ⟨cs⟩)

/-- `BaseExtractor.parseParameterLocation` (`src/extractors/base.ts`,
lines 200-210), idealized: lower-case lookup in the four-entry table,
falling back to `PATH`.  This idealization treats the JS
`locations[lower] || ParameterLocation.PATH` as a pure
lookup-or-default; the real JS property access also reaches the
truthy members inherited from `Object.prototype` (so lowercase inputs
such as `constructor` or `__proto__` do *not* yield `PATH`), and JS
lower-casing is Unicode-wide.  `parseParameterLocationJs` below models
those two behaviors faithfully; this idealized form agrees with it on
every input whose (ASCII-lowered) form is not an `Object.prototype`
member name. -/
def parseParameterLocation (location : String) : ParameterLocation :=
  let lower := toLowerString location
  if lower = "path" then ParameterLocation.PATH
  else if lower = "query" then ParameterLocation.QUERY
  else if lower = "header" then ParameterLocation.HEADER
  else if lower = "cookie" then ParameterLocation.COOKIE
  else ParameterLocation.PATH

/-- What a JS property access on the four-entry `locations` object
literal can produce once the prototype chain is taken into account:
one of the own values (a `ParameterLocation` enum string), or a truthy
member inherited from `Object.prototype` (a function or object — not a
`ParameterLocation` at all, the value the TypeScript annotation
pretends cannot occur). -/
inductive JsPropValue where
  | own : ParameterLocation → JsPropValue
  | inherited : JsPropValue
deriving DecidableEq, Repr

/-- The property names of `Object.prototype`, all of whose values are
truthy (functions, and the `__proto__` accessor yielding
`Object.prototype` itself): a plain object literal inherits every one
of them. -/
def OBJECT_PROTOTYPE_MEMBERS : List String :=
  [ "constructor", "hasOwnProperty", "isPrototypeOf", "propertyIsEnumerable",
    "toLocaleString", "toString", "valueOf", "__proto__",
    "__defineGetter__", "__defineSetter__", "__lookupGetter__", "__lookupSetter__" ]

/-- `BaseExtractor.parseParameterLocation` with the JS object-lookup
semantics modelled faithfully.  The argument is the already
lower-cased string (`location.toLowerCase()` is kept abstract because
JS lower-casing is full Unicode case mapping; on ASCII inputs it is
`toLowerString`).  `locations[lower]` finds an own property for the
four known keys, else an inherited truthy `Object.prototype` member,
else `undefined`; `|| ParameterLocation.PATH` replaces only the falsy
`undefined` — an inherited member is truthy and is returned as-is. -/
def parseParameterLocationJs (lower : String) : JsPropValue :=
  if lower = "path" then JsPropValue.own ParameterLocation.PATH
  else if lower = "query" then JsPropValue.own ParameterLocation.QUERY
  else if lower = "header" then JsPropValue.own ParameterLocation.HEADER
  else if lower = "cookie" then JsPropValue.own ParameterLocation.COOKIE
  else if OBJECT_PROTOTYPE_MEMBERS.contains lower then JsPropValue.inherited
  else JsPropValue.own ParameterLocation.PATH

/-- `BaseExtractor.parseSchemaType`: lower-case lookup in the type
table, falling back to `STRING`.  Idealized the same way as
`parseParameterLocation` (prototype-chain hits and Unicode
lower-casing are not modelled); no verified property depends on the
schema type at those inputs. -/
def parseSchemaType (type : String) : SchemaType :=
  let lower := toLowerString type
  if lower = "string" ∨ lower = "str" then SchemaType.STRING
  else if lower = "number" ∨ lower = "float" ∨ lower = "double" ∨ lower = "decimal" then
    SchemaType.NUMBER
  else if lower = "integer" ∨ lower = "int" ∨ lower = "long" then SchemaType.INTEGER
  else if lower = "boolean" ∨ lower = "bool" then SchemaType.BOOLEAN
  else if lower = "array" ∨ lower = "list" then SchemaType.ARRAY
  else if lower = "object" ∨ lower = "dict" ∨ lower = "map" then SchemaType.OBJECT
  else if lower = "null" ∨ lower = "none" then SchemaType.NULL
  else SchemaType.STRING

/-- `BaseExtractor.parseHttpMethod`: upper-case lookup, `undefined`
when unrecognized. -/
def parseHttpMethod (method : String) : Option HttpMethod :=
  let upper := toUpperString method
  if upper = "GET" then some HttpMethod.GET
  else if upper = "POST" then some HttpMethod.POST
  else if upper = "PUT" then some HttpMethod.PUT
  else if upper = "DELETE" then some HttpMethod.DELETE
  else if upper = "PATCH" then some HttpMethod.PATCH
  else if upper = "OPTIONS" then some HttpMethod.OPTIONS
  else if upper = "HEAD" then some HttpMethod.HEAD
  else none

/-- `BaseExtractor.getStatusDescription`. -/
def getStatusDescription (statusCode : Int) : String :=
  if statusCode = 200 then "Successful response"
  else if statusCode = 201 then "Created"
  else if statusCode = 204 then "No content"
  else if statusCode = 400 then "Bad request"
  else if statusCode = 401 then "Unauthorized"
  else if statusCode = 403 then "Forbidden"
  else if statusCode = 404 then "Not found"
  else if statusCode = 422 then "Validation error"
  else if statusCode = 500 then "Internal server error"
  else "Response"

/-- `BaseExtractor.createDefaultResponse`. -/
def createDefaultResponse (statusCode : Int) (description : Option String := none) :
    ApiResponse :=
  { statusCode := statusCode
    description := description.getD (getStatusDescription statusCode)
    contentType := some "application/json" }

end BaseExtractor

/-- Whether a character list contains two adjacent slashes (the
condition the `/\/+/g` replacement is meant to rule out). -/
def hasDoubleSlash : List Char → Bool
  | [] => false
  | [_] => false
  | a :: b :: rest => (a = '/' ∧ b = '/' : Bool) || hasDoubleSlash (b :: rest)

/-- Modelled from the spec's words (section 8, "Path normalization
invariant"): `path` starts with `/`, never ends with `/` unless it is
exactly `/`, and never contains `//`.  Used only to compare the spec's
claim against the behaviour of `BaseExtractor.normalizePath`. -/
def pathIsNormalizedSpec (s : String) : Bool :=
  decide (s.data.head? = some '/') &&
    (!decide (s.data.getLast? = some '/') || decide (s = "/")) &&
    !hasDoubleSlash s.data

/-- Project metadata (`interface ApiInfo`); contact/license/servers
sub-records are omitted (no verified property reads them). -/
structure ApiInfo where
  title : String
  version : String
  description : Option String := none
deriving DecidableEq, Repr

/-- Output configuration carried on the project (`interface ApiConfig`);
mock-data fields are omitted. -/
structure ApiConfig where
  baseUrl : String
  outputDir : String := ""
deriving DecidableEq, Repr

/-- Caller configuration (`interface ApigenConfig`); only the fields
the embedded functions read. -/
structure ApigenConfig where
  baseUrl : String
  output : String := ""
deriving DecidableEq, Repr

/-- Top-level container (`interface ApiProject`); the optional auth
descriptor is omitted (no verified property reads it). -/
structure ApiProject where
  info : ApiInfo
  config : ApiConfig
  groups : List ApiGroup
  projectType : ProjectType
  sourcePath : String
deriving DecidableEq, Repr

/-- Extraction result (`interface ExtractorResult`). -/
structure ExtractorResult where
  success : Bool
  project : Option ApiProject := none
  errors : List String := []
  warnings : List String := []
  filesProcessed : Nat := 0
  endpointsFound : Nat := 0
deriving DecidableEq, Repr

/-- The model of JavaScript `parseInt(s, 10)`: skip leading
whitespace, an optional sign, then read a maximal run of decimal
digits; `none` models `NaN` (no digits found), trailing characters are
ignored. -/
def parseIntJS (s : String) : Option Int :=
  let cs := s.data.dropWhile (fun c => c.isWhitespace)
  let signed : Bool × List Char :=
    match cs with
    | '-' :: rest => (true, rest)
    | '+' :: rest => (false, rest)
    | _ => (false, cs)
  let digits := signed.2.takeWhile (fun c => c.isDigit)
  if digits = [] then none
  else
    let n : Nat := digits.foldl (fun acc c => acc * 10 + (c.toNat - '0'.toNat)) 0
    some (if signed.1 then -(n : Int) else (n : Int))

namespace BaseExtractor

/-- `BaseExtractor.createEmptyProject`. -/
def createEmptyProject (projectType : ProjectType) (source : String) (config : ApigenConfig) :
    ApiProject :=
  { info := { title := "API Documentation", version := "1.0.0" }
    config := { baseUrl := config.baseUrl, outputDir := config.output }
    groups := []
    projectType := projectType
    sourcePath := source }

/-- `BaseExtractor.createSuccessResult`: `endpointsFound` is the sum of
the group sizes. -/
def createSuccessResult (project : ApiProject) (filesProcessed : Nat := 1)
    (warnings : List String := []) : ExtractorResult :=
  { success := true
    project := some project
    warnings := warnings
    filesProcessed := filesProcessed
    endpointsFound := (project.groups.map (fun g => g.endpoints.length)).sum }

/-- `BaseExtractor.createErrorResult`. -/
def createErrorResult (errors : List String) (warnings : List String := []) :
    ExtractorResult :=
  { success := false
    errors := errors
    warnings := warnings
    filesProcessed := 0
    endpointsFound := 0 }

end BaseExtractor

namespace OpenApiExtractor

/-- Source-side OpenAPI schema node; only the `type` field is read by
the conversions the verified properties depend on. -/
structure OpenApiSchema where
  type : Option String := none
deriving DecidableEq, Repr

/-- Source-side OpenAPI parameter (`interface OpenApiParameter`); the
source field `in` is called `location` here. -/
structure OpenApiParameter where
  name : String
  location : String
  required : Option Bool := none
  schema : Option OpenApiSchema := none
deriving DecidableEq, Repr

/-- Source-side request body: `content` is the ordered key/value list
of the JS content object (content type → optional schema). -/
structure OpenApiRequestBody where
  required : Option Bool := none
  content : List (String × Option OpenApiSchema) := []
deriving DecidableEq, Repr

/-- Source-side response. -/
structure OpenApiResponse where
  description : String
  content : List (String × Option OpenApiSchema) := []
deriving DecidableEq, Repr

/-- Source-side operation: `responses` is the ordered key/value list of
the JS responses object (response key → response). -/
structure OpenApiOperation where
  operationId : Option String := none
  summary : Option String := none
  description : Option String := none
  tags : Option (List String) := none
  parameters : Option (List OpenApiParameter) := none
  requestBody : Option OpenApiRequestBody := none
  responses : List (String × OpenApiResponse) := []
  deprecated : Option Bool := none
deriving DecidableEq, Repr

/-- Source-side path item. -/
structure OpenApiPathItem where
  get : Option OpenApiOperation := none
  post : Option OpenApiOperation := none
  put : Option OpenApiOperation := none
  delete : Option OpenApiOperation := none
  patch : Option OpenApiOperation := none
  options : Option OpenApiOperation := none
  head : Option OpenApiOperation := none
  parameters : Option (List OpenApiParameter) := none
deriving DecidableEq, Repr

/-- A declared tag in the document's tag list. -/
structure OpenApiTag where
  name : String
  description : Option String := none
deriving DecidableEq, Repr

/-- Source-side document; security schemes are omitted (no verified
property reads auth), `servers` keeps only the URLs. -/
structure OpenApiDocument where
  info : ApiInfo
  servers : List String := []
  paths : List (String × OpenApiPathItem) := []
  tags : Option (List OpenApiTag) := none
deriving DecidableEq, Repr

/-- `OpenApiExtractor.convertSchema`, restricted to the `type` tag:
`type: this.parseSchemaType(schema.type || 'string')`. -/
def convertSchema (schema : OpenApiSchema) : ApiSchema :=
  { type := BaseExtractor.parseSchemaType (schema.type.getD "string") }

/-- `OpenApiExtractor.convertParameter` (`src/extractors/openapi.ts`,
lines 404-414): location via `parseParameterLocation`, required via
`param.required || false`, schema defaulting to string. -/
def convertParameter (param : OpenApiParameter) : ApiParameter :=
  { name := param.name
    location := BaseExtractor.parseParameterLocation param.location
    required := param.required.getD false
    schema :=
      match param.schema with
      | some s => convertSchema s
      | none => { type := SchemaType.STRING } }

/-- `OpenApiExtractor.convertRequestBody`: prefer the
`application/json` content entry, else the first declared entry. -/
def convertRequestBody (body : OpenApiRequestBody) : ApiRequestBody :=
  let jsonContent := body.content.lookup "application/json"
  match jsonContent with
  | some schemaOpt =>
    { required := body.required.getD false
      contentType := "application/json"
      schema :=
        match schemaOpt with
        | some s => convertSchema s
        | none => { type := SchemaType.OBJECT } }
  | none =>
    match body.content with
    | (ct, schemaOpt) :: _ =>
      { required := body.required.getD false
        contentType := ct
        schema :=
          match schemaOpt with
          | some s => convertSchema s
          | none => { type := SchemaType.OBJECT } }
    | [] =>
      { required := body.required.getD false
        contentType := ""
        schema := { type := SchemaType.OBJECT } }

/-- `OpenApiExtractor.convertResponse` (`src/extractors/openapi.ts`,
lines 454-478): `statusCode: isNaN(statusCode) ? 200 : statusCode` —
the `Option Int` argument is the result of `parseInt` with `none`
standing for `NaN`; content type prefers `application/json`, else the
first declared entry. -/
def convertResponse (statusCode : Option Int) (response : OpenApiResponse) : ApiResponse :=
  let scode := match statusCode with | none => 200 | some n => n
  match response.content.lookup "application/json" with
  | some schemaOpt =>
    { statusCode := scode
      description := response.description
      contentType := some "application/json"
      schema := schemaOpt.map convertSchema }
  | none =>
    match response.content with
    | (ct, schemaOpt) :: _ =>
      { statusCode := scode
        description := response.description
        contentType := some ct
        schema := schemaOpt.map convertSchema }
    | [] =>
      { statusCode := scode
        description := response.description }

/-- `OpenApiExtractor.createEndpoint` (`src/extractors/openapi.ts`,
lines 363-396): path-level parameters concatenated with
operation-level parameters (no deduplication), each converted by
`convertParameter`; responses keyed by `parseInt` of the response key. -/
def createEndpoint (path : String) (method : HttpMethod) (operation : OpenApiOperation)
    (pathParams : List OpenApiParameter) : ApiEndpoint :=
  let allParams := pathParams ++ operation.parameters.getD []
  { method := method
    path := BaseExtractor.normalizePath path
    summary := operation.summary
    description := operation.description
    operationId := operation.operationId
    tags := operation.tags
    parameters := allParams.map convertParameter
    requestBody := operation.requestBody.map convertRequestBody
    responses := operation.responses.map (fun p => convertResponse (parseIntJS p.1) p.2)
    deprecated := operation.deprecated }

/-- `OpenApiExtractor.extractEndpoints`: every declared method of every
path item becomes one endpoint, in the source's fixed method order. -/
def extractEndpoints (api : OpenApiDocument) : List ApiEndpoint :=
  (api.paths.map (fun pe =>
    let pathParams := pe.2.parameters.getD []
    ([ (HttpMethod.GET, pe.2.get), (HttpMethod.POST, pe.2.post), (HttpMethod.PUT, pe.2.put),
       (HttpMethod.DELETE, pe.2.delete), (HttpMethod.PATCH, pe.2.patch),
       (HttpMethod.OPTIONS, pe.2.options), (HttpMethod.HEAD, pe.2.head) ]).filterMap
      (fun mo => mo.2.map (fun op => createEndpoint pe.1 mo.1 op pathParams)))).flatten

/-- The value type of the grouping map in
`OpenApiExtractor.groupEndpointsByTag`. -/
structure TagGroup where
  description : Option String := none
  endpoints : List ApiEndpoint := []
deriving DecidableEq, Repr

/-- JS `Map.set` on an insertion-ordered association list: an existing
key keeps its position and gets the new value, a new key is appended. -/
def mapSet (m : List (String × TagGroup)) (k : String) (v : TagGroup) :
    List (String × TagGroup) :=
  if m.any (fun p => p.1 = k) then
    m.map (fun p => if p.1 = k then (k, v) else p)
  else m ++ [(k, v)]

/-- The group key of an endpoint: `endpoint.tags?.[0] || 'default'`
(an absent tag list, an empty tag list, and an empty first tag all
fall back to `'default'`, the empty string being falsy in JS). -/
def firstTagName (e : ApiEndpoint) : String :=
  match e.tags with
  | some (t :: _) => if t = "" then "default" else t
  | _ => "default"

/-- The body of the per-endpoint loop of `groupEndpointsByTag`: create
the group on first use, then append the endpoint to it. -/
def addEndpointToTagMap (m : List (String × TagGroup)) (e : ApiEndpoint) :
    List (String × TagGroup) :=
  let tagName := firstTagName e
  let m1 :=
    if m.any (fun p => p.1 = tagName) then m
    else m ++ [(tagName, { description := none, endpoints := [] })]
  m1.map (fun p =>
    if p.1 = tagName then (p.1, { p.2 with endpoints := p.2.endpoints ++ [e] }) else p)

/-- `OpenApiExtractor.groupEndpointsByTag` (`src/extractors/openapi.ts`,
lines 578-623): seed the map with the declared tags and a `default`
entry, distribute endpoints by first tag, then keep only non-empty
groups, in map insertion order. -/
def groupEndpointsByTag (endpoints : List ApiEndpoint) (tags : Option (List OpenApiTag)) :
    List ApiGroup :=
  let m0 : List (String × TagGroup) :=
    (tags.getD []).foldl
      (fun m tag => mapSet m tag.name { description := tag.description, endpoints := [] }) []
  let m1 := mapSet m0 "default" { description := none, endpoints := [] }
  let m2 := endpoints.foldl addEndpointToTagMap m1
  (m2.filter (fun p => ¬ p.2.endpoints = [])).map
    (fun p => { name := p.1, description := p.2.description, endpoints := p.2.endpoints })

/-- `OpenApiExtractor.parseSpec` (`src/extractors/openapi.ts`, lines
265-279): try `SwaggerParser.dereference`, on failure try
`SwaggerParser.bundle`, on failure return `null`.  The two strategies
are inputs (`Except` models throw-vs-return of the library calls). -/
def parseSpec (deref bundle : Except String OpenApiDocument) : Option OpenApiDocument :=
  match deref with
  | Except.ok api => some api
  | Except.error _ =>
    match bundle with
    | Except.ok api => some api
    | Except.error _ => none

/-- `OpenApiExtractor.extract` (`src/extractors/openapi.ts`, lines
204-257): a `null` parse yields the single error result; otherwise the
project is built (info from the spec, base URL from the first server
if any, endpoints grouped by tag) and returned as a success result. -/
def extract (deref bundle : Except String OpenApiDocument) (source : String)
    (config : ApigenConfig) : ExtractorResult :=
  match parseSpec deref bundle with
  | none => BaseExtractor.createErrorResult ["OpenAPI spec dosyası parse edilemedi"]
  | some api =>
    let project0 := BaseExtractor.createEmptyProject ProjectType.OPENAPI source config
    let baseUrl := match api.servers with | [] => project0.config.baseUrl | u :: _ => u
    let endpoints := extractEndpoints api
    let project :=
      { project0 with
          info := api.info
          config := { project0.config with baseUrl := baseUrl }
          groups := groupEndpointsByTag endpoints api.tags }
    BaseExtractor.createSuccessResult project 1

end OpenApiExtractor

namespace FastApiExtractor

/-- A parsed handler parameter (the output shape of
`FastApiExtractor.parseFunctionParams`); the raw-text parsing of the
`def f(...)` parameter list is abstracted as an input of
`routeToEndpoint`. -/
structure FuncParam where
  name : String
  type : String
  hasDefault : Bool
deriving DecidableEq, Repr

/-- A route found by the decorator scan (`interface ExtractedRoute`),
with `functionParams` already parsed into `funcParams`. -/
structure ExtractedRoute where
  method : HttpMethod
  path : String
  functionName : String
  routerName : String
  filePath : String
  funcParams : List FuncParam := []
deriving DecidableEq, Repr

/-- `FastApiExtractor.pythonTypeToSchemaType`: strip the generic
bracket part, look the head up in `TYPE_PATTERNS`, default `STRING`.
Idealized like `BaseExtractor.parseSchemaType`: the JS
`TYPE_PATTERNS[cleanType] || SchemaType.STRING` would also return
inherited truthy values for `Object.prototype` member names; no
verified property depends on the schema type at those inputs. -/
def pythonTypeToSchemaType (pythonType : String) : SchemaType :=
  let cleanType : String := ⟨(trimString pythonType).data.takeWhile (fun c => ¬ c = '[')⟩
  if cleanType = "str" then SchemaType.STRING
  else if cleanType = "int" then SchemaType.INTEGER
  else if cleanType = "float" then SchemaType.NUMBER
  else if cleanType = "bool" then SchemaType.BOOLEAN
  else if cleanType = "list" ∨ cleanType = "List" then SchemaType.ARRAY
  else if cleanType = "dict" ∨ cleanType = "Dict" then SchemaType.OBJECT
  else if cleanType = "Optional" then SchemaType.STRING
  else if cleanType = "Any" then SchemaType.STRING
  else SchemaType.STRING

/-- `charAt(0).toUpperCase() + slice(1)`. -/
def capitalizeWord (w : String) : String :=
  match w.data with
  | [] => ""
  | c :: rest => ⟨c.toUpper :: rest⟩

/-- The JS `split('_')` on character lists. -/
def splitUnderscore : List Char → List (List Char)
  | [] => [[]]
  | c :: rest =>
    if c = '_' then [] :: splitUnderscore rest
    else
      match splitUnderscore rest with
      | [] => [[c]]
      | hd :: tl => (c :: hd) :: tl

/-- The JS `Array.prototype.join(' ')`. -/
def joinSpace : List String → String
  | [] => ""
  | [w] => w
  | w :: rest => w ++ " " ++ joinSpace rest

/-- `FastApiExtractor.generateSummary`: snake_case to Title Case. -/
def generateSummary (funcName : String) : String :=
  joinSpace ((splitUnderscore funcName.data).map (fun w => capitalizeWord ⟨w⟩))

/-- `FastApiExtractor.routeToEndpoint` (`src/extractors/python/fastapi.ts`,
lines 448-522).  `routers` is the router-name → prefix map built in
pass one (an empty prefix is falsy in JS and is not applied); `models`
is the set of discovered Pydantic model names.  Path placeholders each
yield a required path parameter; remaining handler parameters become
query parameters unless they name a known model (request body) or one
of the injected names.  The prefix application (`routerInfo.prefix`
falsy check) is factored into `fullPathOf` so that theorems can refer
to the resolved path. -/
def fullPathOf (routers : List (String × String)) (route : ExtractedRoute) : String :=
  match routers.lookup route.routerName with
  | some routerPre => if routerPre = "" then route.path else routerPre ++ route.path
  | none => route.path

/-- `FastApiExtractor.routeToEndpoint` (`src/extractors/python/fastapi.ts`,
lines 448-522), continued: see `fullPathOf` for the prefix
application. -/
def routeToEndpoint (routers : List (String × String)) (models : List String)
    (route : ExtractedRoute) : ApiEndpoint :=
  let fullPath := fullPathOf routers route
  let pathParams := BaseExtractor.extractPathParams fullPath
  let pathParameters : List ApiParameter := pathParams.map (fun paramName =>
    { name := paramName
      location := ParameterLocation.PATH
      required := true
      schema :=
        { type :=
            match route.funcParams.find? (fun p => p.name = paramName) with
            | some fp => pythonTypeToSchemaType fp.type
            | none => SchemaType.STRING } })
  let queryParameters : List ApiParameter := route.funcParams.filterMap (fun p =>
    if pathParams.contains p.name then none
    else if p.name = "request" ∨ p.name = "db" ∨ p.name = "session" then none
    else if models.contains p.type then none
    else some
      { name := p.name
        location := ParameterLocation.QUERY
        required := !p.hasDefault
        schema := { type := pythonTypeToSchemaType p.type } })
  let requestBody : Option ApiRequestBody :=
    match route.funcParams.find? (fun p => models.contains p.type) with
    | some bodyParam =>
      if route.method = HttpMethod.POST ∨ route.method = HttpMethod.PUT ∨
          route.method = HttpMethod.PATCH then
        some
          { required := !bodyParam.hasDefault
            contentType := "application/json"
            schema := { type := SchemaType.OBJECT } }
      else none
    | none => none
  { method := route.method
    path := BaseExtractor.normalizePath fullPath
    summary := some (generateSummary route.functionName)
    operationId := some route.functionName
    parameters := pathParameters ++ queryParameters
    requestBody := requestBody
    responses :=
      [ BaseExtractor.createDefaultResponse 200 (some "Successful Response"),
        BaseExtractor.createDefaultResponse 422 (some "Validation Error") ] }

/-- A concrete fixture route (one router-prefixed GET handler with a
typed path parameter and one optional query parameter), used to
instantiate the FastAPI theorems. -/
def sampleRoute : ExtractedRoute :=
  { method := HttpMethod.GET
    path := "/items/{item_id}"
    functionName := "read_item"
    routerName := "router"
    filePath := "main.py"
    funcParams :=
      [ { name := "item_id", type := "int", hasDefault := false },
        { name := "q", type := "str", hasDefault := true } ] }

end FastApiExtractor

namespace DjangoRestExtractor

/-- A route of the Django REST extractor (`interface ExtractedRoute`). -/
structure ExtractedRoute where
  method : HttpMethod
  path : String
  viewName : String
  viewType : String
  filePath : String
deriving DecidableEq, Repr

/-- The `VIEWSET_ACTIONS['ModelViewSet']` table (`src/unnamed/part_000`,
lines 163-182): list/create on the collection path, and
retrieve/update/partial-update/destroy on the `/{id}` path. -/
def VIEWSET_ACTIONS_ModelViewSet : List (HttpMethod × String) :=
  [ (HttpMethod.GET, ""), (HttpMethod.POST, ""),
    (HttpMethod.GET, "/{id}"), (HttpMethod.PUT, "/{id}"),
    (HttpMethod.PATCH, "/{id}"), (HttpMethod.DELETE, "/{id}") ]

/-- `DjangoRestExtractor.generateViewSetRoutes` (`src/unnamed/part_000`,
lines 525-548): for every router registration whose ViewSet class was
discovered in pass one, synthesize the full `ModelViewSet` action set
under `/api/<prefix>`; a registration whose class was never discovered
is skipped.  `routerRegistrations` is the registration map
(ViewSet name → URL prefix, insertion ordered); `viewSets` is the
pass-one map (ViewSet name → file path). -/
def generateViewSetRoutes (routerRegistrations : List (String × String))
    (viewSets : List (String × String)) : List ExtractedRoute :=
  (routerRegistrations.map (fun reg =>
    match viewSets.lookup reg.1 with
    | none => []
    | some fp =>
      VIEWSET_ACTIONS_ModelViewSet.map (fun action =>
        { method := action.1
          path := "/api/" ++ reg.2 ++ action.2
          viewName := reg.1
          viewType := "viewset"
          filePath := fp }))).flatten

end DjangoRestExtractor

/-- Detector output (`interface DetectionResult`); `specFile`,
`projectFiles` and `estimatedEndpoints` are omitted, `reasons` strings
are carried but their contents are not modelled in the scoring
branches. -/
structure DetectionResult where
  type : ProjectType
  confidence : Nat
  reasons : List String := []
deriving DecidableEq, Repr

namespace ProjectDetector

/-- `DETECTION_SCORES.PROJECT_FILE`. -/
def PROJECT_FILE : Nat := 20

/-- `DETECTION_SCORES.FRAMEWORK_FILE`. -/
def FRAMEWORK_FILE : Nat := 40

/-- `DETECTION_SCORES.CODE_PATTERN`. -/
def CODE_PATTERN : Nat := 60

/-- `DETECTION_SCORES.MULTIPLE_ENDPOINTS`. -/
def MULTIPLE_ENDPOINTS : Nat := 80

/-- `DETECTION_SCORES.OPENAPI_SPEC`. -/
def OPENAPI_SPEC : Nat := 100

/-- `MIN_CONFIDENCE_THRESHOLD`. -/
def MIN_CONFIDENCE_THRESHOLD : Nat := 30

/-- Stable insertion by descending key: the model of JS
`Array.prototype.sort` with comparator `(a, b) => key(b) - key(a)`
(stable since ES2019), one inserted element at a time. -/
def insertDescBy {α : Type} (key : α → Nat) (x : α) : List α → List α
  | [] => [x]
  | y :: ys => if key y > key x then y :: insertDescBy key x ys else x :: y :: ys

/-- Stable sort by descending key (see `insertDescBy`). -/
def sortDescBy {α : Type} (key : α → Nat) : List α → List α
  | [] => []
  | x :: xs => insertDescBy key x (sortDescBy key xs)

/-- The textual signals `ProjectDetector.detectFastApi` reads from one
Python file. -/
structure FastApiFileSignal where
  hasFastApiImport : Bool := false
  hasFastApiInstance : Bool := false
  hasApiRouter : Bool := false
  routeDecoratorCount : Nat := 0
deriving DecidableEq, Repr

/-- `ProjectDetector.detectFastApi` (`src/core/orchestrator.ts`, lines
1454-1521): per-file import/instance/router scores, plus a bonus of
`min(MULTIPLE_ENDPOINTS, endpointCount * 5)` when any route decorator
matched.  Returns (score, endpointCount). -/
def detectFastApi (files : List FastApiFileSignal) : Nat × Nat :=
  let score := (files.map (fun f =>
    (if f.hasFastApiImport then CODE_PATTERN else 0) +
    (if f.hasFastApiInstance then FRAMEWORK_FILE else 0) +
    (if f.hasApiRouter then PROJECT_FILE else 0))).sum
  let endpointCount := (files.map (fun f => f.routeDecoratorCount)).sum
  let bonus := if endpointCount > 0 then min MULTIPLE_ENDPOINTS (endpointCount * 5) else 0
  (score + bonus, endpointCount)

/-- The textual signals `ProjectDetector.detectFlask` reads from one
Python file. -/
structure FlaskFileSignal where
  hasFlaskImport : Bool := false
  hasFlaskInstance : Bool := false
  hasBlueprint : Bool := false
  routeDecoratorCount : Nat := 0
deriving DecidableEq, Repr

/-- `ProjectDetector.detectFlask`: same shape as `detectFastApi` with
the Flask patterns. -/
def detectFlask (files : List FlaskFileSignal) : Nat × Nat :=
  let score := (files.map (fun f =>
    (if f.hasFlaskImport then CODE_PATTERN else 0) +
    (if f.hasFlaskInstance then FRAMEWORK_FILE else 0) +
    (if f.hasBlueprint then PROJECT_FILE else 0))).sum
  let endpointCount := (files.map (fun f => f.routeDecoratorCount)).sum
  let bonus := if endpointCount > 0 then min MULTIPLE_ENDPOINTS (endpointCount * 5) else 0
  (score + bonus, endpointCount)

/-- The textual signals `ProjectDetector.detectDjango` reads from one
Python file. -/
structure DjangoFileSignal where
  hasDrfImport : Bool := false
  apiViewDecoratorCount : Nat := 0
  hasViewSetClass : Bool := false
  hasApiViewClass : Bool := false
  hasRouter : Bool := false
  hasSerializer : Bool := false
deriving DecidableEq, Repr

/-- `ProjectDetector.detectDjango` (`src/core/orchestrator.ts`, lines
1597-1679): `manage.py` and per-file scores; a ViewSet class adds 6 to
the endpoint count, an APIView class 1; bonus
`min(MULTIPLE_ENDPOINTS, endpointCount * 3)`. -/
def detectDjango (hasManagePy : Bool) (files : List DjangoFileSignal) : Nat × Nat :=
  let score := (if hasManagePy then PROJECT_FILE else 0) +
    (files.map (fun f =>
      (if f.hasDrfImport then CODE_PATTERN else 0) +
      (if f.hasViewSetClass then FRAMEWORK_FILE else 0) +
      (if f.hasApiViewClass then CODE_PATTERN else 0) +
      (if f.hasRouter then PROJECT_FILE else 0) +
      (if f.hasSerializer then PROJECT_FILE else 0))).sum
  let endpointCount := (files.map (fun f =>
    f.apiViewDecoratorCount + (if f.hasViewSetClass then 6 else 0) +
      (if f.hasApiViewClass then 1 else 0))).sum
  let bonus := if endpointCount > 0 then min MULTIPLE_ENDPOINTS (endpointCount * 3) else 0
  (score + bonus, endpointCount)

/-- `ProjectDetector.detectPython` (`src/core/orchestrator.ts`, lines
1385-1446): `proceed` models the Python-marker / `.py`-file gate; the
three framework scores are compared by the stable descending sort and
the winner is returned when it clears the threshold — with the raw,
uncapped score as `confidence`. -/
def detectPython (proceed : Bool) (hasManagePy : Bool) (fa : List FastApiFileSignal)
    (fl : List FlaskFileSignal) (dj : List DjangoFileSignal) : Option DetectionResult :=
  if ¬ proceed then none
  else
    let scores := sortDescBy (fun s => s.2)
      [ (ProjectType.FASTAPI, (detectFastApi fa).1),
        (ProjectType.FLASK, (detectFlask fl).1),
        (ProjectType.DJANGO_REST, (detectDjango hasManagePy dj).1) ]
    match scores with
    | [] => none
    | best :: _ =>
      if best.2 ≥ MIN_CONFIDENCE_THRESHOLD then
        some { type := best.1, confidence := best.2 }
      else none

/-- The signals `ProjectDetector.detectJava` reads: build files, the
spring-boot dependency marks, and one endpoint-annotation count per
controller file found. -/
structure JavaSignals where
  hasMaven : Bool := false
  hasGradle : Bool := false
  mavenHasSpringBoot : Bool := false
  gradleHasSpringBoot : Bool := false
  controllerEndpointCounts : List Nat := []
deriving DecidableEq, Repr

/-- `ProjectDetector.detectJava` (`src/core/orchestrator.ts`, lines
1687-1789): requires a Maven or Gradle build file; the returned
confidence is capped with `Math.min(score, 100)`. -/
def detectJava (sig : JavaSignals) : Option DetectionResult :=
  if ¬ (sig.hasMaven ∨ sig.hasGradle) then none
  else
    let score := PROJECT_FILE +
      (if sig.hasMaven ∧ sig.mavenHasSpringBoot then FRAMEWORK_FILE else 0) +
      (if sig.hasGradle ∧ sig.gradleHasSpringBoot then FRAMEWORK_FILE else 0) +
      CODE_PATTERN * sig.controllerEndpointCounts.length
    let endpointCount := sig.controllerEndpointCounts.sum
    let total := score +
      (if endpointCount > 0 then min MULTIPLE_ENDPOINTS (endpointCount * 3) else 0)
    if total < MIN_CONFIDENCE_THRESHOLD then none
    else some { type := ProjectType.SPRING_BOOT, confidence := min total 100 }

/-- The signals `ProjectDetector.detectDotNet` reads: one ASP.NET-marker
flag per `.csproj` file, and one HTTP-attribute count per controller
file. -/
structure DotNetSignals where
  csprojAspNetFlags : List Bool := []
  controllerEndpointCounts : List Nat := []
deriving DecidableEq, Repr

/-- `ProjectDetector.detectDotNet` (`src/core/orchestrator.ts`, lines
1797-1899): requires at least one `.csproj`; confidence capped with
`Math.min(score, 100)`. -/
def detectDotNet (sig : DotNetSignals) : Option DetectionResult :=
  if sig.csprojAspNetFlags = [] then none
  else
    let score := PROJECT_FILE +
      FRAMEWORK_FILE * (sig.csprojAspNetFlags.filter (fun b => b)).length +
      CODE_PATTERN * sig.controllerEndpointCounts.length
    let endpointCount := sig.controllerEndpointCounts.sum
    let total := score +
      (if endpointCount > 0 then min MULTIPLE_ENDPOINTS (endpointCount * 3) else 0)
    if total < MIN_CONFIDENCE_THRESHOLD then none
    else some { type := ProjectType.ASPNET_CORE, confidence := min total 100 }

/-- `ProjectDetector.detectOpenApi` (`src/core/orchestrator.ts`, lines
1288-1339), with the filesystem search abstracted to whether some
candidate spec file validated: a validated spec yields confidence
`OPENAPI_SPEC` (= 100). -/
def detectOpenApi (specValidated : Bool) : Option DetectionResult :=
  if specValidated then some { type := ProjectType.OPENAPI, confidence := OPENAPI_SPEC }
  else none

/-- `ProjectDetector.createUnknownResult`. -/
def createUnknownResult (reasons : List String) : DetectionResult :=
  { type := ProjectType.UNKNOWN, confidence := 0, reasons := reasons }

/-- `ProjectDetector.detect` (`src/core/orchestrator.ts`, lines
1223-1280): run all four strategies, collect the non-null results in
the fixed order (openapi, python, java, dotnet), sort by confidence
descending (stable), return the head when it clears the threshold. -/
def detect (dirExists : Bool)
    (openapiResult pythonResult javaResult dotnetResult : Option DetectionResult) :
    DetectionResult :=
  if ¬ dirExists then createUnknownResult ["Dizin bulunamadı"]
  else
    let results := openapiResult.toList ++ pythonResult.toList ++
      javaResult.toList ++ dotnetResult.toList
    match sortDescBy (fun r => r.confidence) results with
    | [] => createUnknownResult ["Desteklenen proje tipi bulunamadı"]
    | best :: _ =>
      if best.confidence < MIN_CONFIDENCE_THRESHOLD then
        createUnknownResult ["Algılama skoru minimum eşiğin altında"]
      else best

end ProjectDetector

theorem collapseSlashes_head? (l : List Char) :
    (BaseExtractor.collapseSlashes l).head? = l.head? := by
  induction l with
  | nil => rfl
  | cons a tail ih =>
    cases tail with
    | nil => rfl
    | cons b rest =>
      rw [BaseExtractor.collapseSlashes]
      by_cases hab : a = '/' ∧ b = '/'
      · simp only [if_pos hab]
        rw [ih]
        simp [hab.1, hab.2]
      · simp [if_neg hab]

theorem hasDoubleSlash_collapseSlashes (l : List Char) :
    hasDoubleSlash (BaseExtractor.collapseSlashes l) = false := by
  induction l with
  | nil => rfl
  | cons a tail ih =>
    cases tail with
    | nil => rfl
    | cons b rest =>
      rw [BaseExtractor.collapseSlashes]
      by_cases hab : a = '/' ∧ b = '/'
      · simpa [if_pos hab] using ih
      · simp only [if_neg hab]
        have hhead := collapseSlashes_head? (b :: rest)
        cases hc : BaseExtractor.collapseSlashes (b :: rest) with
        | nil => rfl
        | cons c tl =>
          rw [hc] at ih hhead
          simp only [List.head?] at hhead
          have hcb : c = b := by injection hhead
          rw [hasDoubleSlash]
          rw [ih]
          subst hcb
          simp only [Bool.or_false]
          by_cases ha : a = '/'
          · by_cases hb : c = '/'
            · exact absurd ⟨ha, hb⟩ hab
            · simp [hb]
          · simp [ha]

theorem dropLast_head?_of_one_lt {l : List Char} (h : 1 < l.length) :
    l.dropLast.head? = l.head? := by
  cases l with
  | nil => simp at h
  | cons a tl =>
    cases tl with
    | nil => simp at h
    | cons b tl' => simp [List.dropLast]

theorem normalizePathList_head (cs : List Char) :
    (BaseExtractor.normalizePathList cs).head? = some '/' := by
  have main : ∀ s1 : List Char, s1.head? = some '/' →
      (BaseExtractor.collapseSlashes
        (if s1.length > 1 ∧ s1.getLast? = some '/' then s1.dropLast else s1)).head? =
        some '/' := by
    intro s1 h
    by_cases h2 : s1.length > 1 ∧ s1.getLast? = some '/'
    · rw [if_pos h2, collapseSlashes_head?, dropLast_head?_of_one_lt h2.1, h]
    · rw [if_neg h2, collapseSlashes_head?, h]
  exact main (if cs.head? = some '/' then cs else '/' :: cs)
    (by by_cases h : cs.head? = some '/'
        · simp [h]
        · simp [h])

/-- **C2** (amended).  For every input string, the shared
`BaseExtractor.normalizePath` returns a string that starts with `/`
and contains no `//`; the original claim's third condition (never ends
with `/` unless the result is exactly `/`) does not hold, because the
code strips one trailing slash before collapsing repeated slashes
(see `C2_counterexample`). -/
theorem C2_normalizePath_leading_slash_no_double_slash (s : String) :
    (BaseExtractor.normalizePath s).data.head? = some '/' ∧
      hasDoubleSlash (BaseExtractor.normalizePath s).data = false := by
  constructor
  · exact normalizePathList_head s.data
  · exact hasDoubleSlash_collapseSlashes _

/-- **C2** (counterexample).  On input `"users//"` the code returns
`"/users/"`, which ends with a slash yet is not the root path, so the
normalization claim as stated is false. -/
theorem C2_counterexample :
    BaseExtractor.normalizePath "users//" = "/users/" ∧
      pathIsNormalizedSpec (BaseExtractor.normalizePath "users//") = false := by
  constructor
  · rfl
  · rfl

/-- **C10** (counterexample).  The JS lookup
`locations[lower] || ParameterLocation.PATH` consults the prototype
chain: at the lowercase input `constructor` it finds the truthy
inherited `Object.prototype.constructor` and returns that value, not
`ParameterLocation.PATH` — so the universal default-to-`PATH` claim is
false at `constructor`. -/
theorem C10_counterexample :
    BaseExtractor.parseParameterLocationJs "constructor" ≠
      BaseExtractor.JsPropValue.own ParameterLocation.PATH ∧
    BaseExtractor.parseParameterLocationJs "constructor" =
      BaseExtractor.JsPropValue.inherited := by
  exact ⟨by decide, rfl⟩

/-- **C10** (amended).  With the JS object-lookup semantics modelled
faithfully, the parameter-location parser defaults to `PATH` for every
lowercase input that is neither one of the four known keys nor the
name of an `Object.prototype` member; for each prototype member name
(`constructor`, `toString`, `__proto__`, …) the lookup instead returns
the truthy inherited value, not `PATH` (and JS Unicode lower-casing,
outside this model's ASCII lowering, can land non-ASCII inputs such as
U+212A KELVIN SIGN on the known keys).  The `in: body` consequence of
the original claim stands: `body` is neither a key nor a prototype
member, so such a parameter is emitted with `location = path` while
keeping its declared required flag (`required || false`). -/
theorem C10_path_default_except_prototype_members :
    (∀ lower : String,
      lower ≠ "path" → lower ≠ "query" → lower ≠ "header" → lower ≠ "cookie" →
        BaseExtractor.OBJECT_PROTOTYPE_MEMBERS.contains lower = false →
        BaseExtractor.parseParameterLocationJs lower =
          BaseExtractor.JsPropValue.own ParameterLocation.PATH) ∧
    (∀ lower ∈ BaseExtractor.OBJECT_PROTOTYPE_MEMBERS,
      BaseExtractor.parseParameterLocationJs lower =
        BaseExtractor.JsPropValue.inherited) ∧
    (BaseExtractor.parseParameterLocationJs "body" =
      BaseExtractor.JsPropValue.own ParameterLocation.PATH) ∧
    (∀ p : OpenApiExtractor.OpenApiParameter, p.location = "body" →
      (OpenApiExtractor.convertParameter p).location = ParameterLocation.PATH ∧
        (OpenApiExtractor.convertParameter p).required = p.required.getD false) := by
  refine ⟨?_, ?_, ?_, ?_⟩
  · intro lower h1 h2 h3 h4 h5
    simp only [BaseExtractor.parseParameterLocationJs, if_neg h1, if_neg h2, if_neg h3,
      if_neg h4, h5]
    rfl
  · decide
  · rfl
  · intro p hp
    refine ⟨?_, rfl⟩
    show BaseExtractor.parseParameterLocation p.location = ParameterLocation.PATH
    rw [hp]
    rfl

/-- **C10** (witness): the default branch at the concrete non-key,
non-prototype input `body`, the prototype-member branch at
`constructor`, and the `in: body` case at a concrete parameter. -/
theorem C10_witness :
    BaseExtractor.parseParameterLocationJs "body" =
      BaseExtractor.JsPropValue.own ParameterLocation.PATH ∧
    BaseExtractor.parseParameterLocationJs "constructor" =
      BaseExtractor.JsPropValue.inherited ∧
    (OpenApiExtractor.convertParameter { name := "payload", location := "body" }).location =
      ParameterLocation.PATH ∧
    (OpenApiExtractor.convertParameter { name := "payload", location := "body" }).required =
      false :=
  ⟨C10_path_default_except_prototype_members.1 "body" (by decide) (by decide) (by decide)
      (by decide) (by decide),
    C10_path_default_except_prototype_members.2.1 "constructor" (by decide),
    (C10_path_default_except_prototype_members.2.2.2
      { name := "payload", location := "body" } rfl).1,
    (C10_path_default_except_prototype_members.2.2.2
      { name := "payload", location := "body" } rfl).2⟩

theorem convertResponse_statusCode (sc : Option Int) (resp : OpenApiExtractor.OpenApiResponse) :
    (OpenApiExtractor.convertResponse sc resp).statusCode = sc.getD 200 := by
  unfold OpenApiExtractor.convertResponse
  cases h : resp.content.lookup "application/json" with
  | some schemaOpt => cases sc <;> simp [h]
  | none =>
    cases hc : resp.content with
    | nil => cases sc <;> simp [h, hc]
    | cons hd tl => cases sc <;> simp [h, hc]

/-- **C4** (confirmed).  Every response key is parsed with
`parseInt(key, 10)` and a `NaN` result falls back to 200, so every
emitted `Response` carries a concrete numeric status code; a key with
no leading digits (such as `default`) maps to 200, while a key with a
numeric prefix such as `4XX` maps to its leading digits (4). -/
theorem C4_response_status_parse :
    (∀ resp : OpenApiExtractor.OpenApiResponse,
      (OpenApiExtractor.convertResponse (parseIntJS "default") resp).statusCode = 200 ∧
      (OpenApiExtractor.convertResponse (parseIntJS "4XX") resp).statusCode = 4 ∧
      (OpenApiExtractor.convertResponse (parseIntJS "404") resp).statusCode = 404) ∧
    (∀ (key : String) (resp : OpenApiExtractor.OpenApiResponse), parseIntJS key = none →
      (OpenApiExtractor.convertResponse (parseIntJS key) resp).statusCode = 200) := by
  constructor
  · intro resp
    have hdef : parseIntJS "default" = none := by decide
    have h4xx : parseIntJS "4XX" = some 4 := by decide
    have h404 : parseIntJS "404" = some 404 := by decide
    refine ⟨?_, ?_, ?_⟩
    · rw [convertResponse_statusCode, hdef]; rfl
    · rw [convertResponse_statusCode, h4xx]; rfl
    · rw [convertResponse_statusCode, h404]; rfl
  · intro key resp h
    rw [convertResponse_statusCode, h]
    rfl

/-- **C4** (witness): the fallback branch at the concrete key
`default`. -/
theorem C4_witness :
    (OpenApiExtractor.convertResponse (parseIntJS "default")
      { description := "fallback" }).statusCode = 200 :=
  C4_response_status_parse.2 "default" { description := "fallback" } (by decide)

/-- **C6** (confirmed).  The OpenAPI extractor first tries full
dereferencing; a dereference failure falls back to bundling; and when
both strategies fail the whole extraction is a single
`success = false` result carrying a descriptive error and no project —
while a successful parse (by either strategy) yields a
`success = true` result.  There is no partial-success outcome. -/
theorem C6_parse_fallback_all_or_nothing :
    (∀ (api : OpenApiExtractor.OpenApiDocument)
        (bundle : Except String OpenApiExtractor.OpenApiDocument),
      OpenApiExtractor.parseSpec (Except.ok api) bundle = some api) ∧
    (∀ (e : String) (api : OpenApiExtractor.OpenApiDocument),
      OpenApiExtractor.parseSpec (Except.error e) (Except.ok api) = some api) ∧
    (∀ (e e' : String) (source : String) (config : ApigenConfig),
      (OpenApiExtractor.extract (Except.error e) (Except.error e') source config).success =
          false ∧
        (OpenApiExtractor.extract (Except.error e) (Except.error e') source config).project =
          none ∧
        (OpenApiExtractor.extract (Except.error e) (Except.error e') source config).errors =
          ["OpenAPI spec dosyası parse edilemedi"]) ∧
    (∀ (api : OpenApiExtractor.OpenApiDocument)
        (bundle : Except String OpenApiExtractor.OpenApiDocument)
        (source : String) (config : ApigenConfig),
      (OpenApiExtractor.extract (Except.ok api) bundle source config).success = true) :=
  ⟨fun _ _ => rfl, fun _ _ => rfl, fun _ _ _ _ => ⟨rfl, rfl, rfl⟩, fun _ _ _ _ => rfl⟩

/-- **C9** (confirmed).  Every router registration whose ViewSet class
was discovered in pass one synthesizes exactly the six `ModelViewSet`
operations — GET and POST on `/api/<prefix>`, and GET, PUT, PATCH,
DELETE on `/api/<prefix>/{id}` — while a registration whose class was
never discovered yields zero routes; registrations contribute
independently. -/
theorem C9_viewset_full_crud_synthesis :
    (∀ (name routePre fp : String) (viewSets : List (String × String)),
      viewSets.lookup name = some fp →
      DjangoRestExtractor.generateViewSetRoutes [(name, routePre)] viewSets =
        [ { method := HttpMethod.GET, path := "/api/" ++ routePre,
            viewName := name, viewType := "viewset", filePath := fp },
          { method := HttpMethod.POST, path := "/api/" ++ routePre,
            viewName := name, viewType := "viewset", filePath := fp },
          { method := HttpMethod.GET, path := "/api/" ++ routePre ++ "/{id}",
            viewName := name, viewType := "viewset", filePath := fp },
          { method := HttpMethod.PUT, path := "/api/" ++ routePre ++ "/{id}",
            viewName := name, viewType := "viewset", filePath := fp },
          { method := HttpMethod.PATCH, path := "/api/" ++ routePre ++ "/{id}",
            viewName := name, viewType := "viewset", filePath := fp },
          { method := HttpMethod.DELETE, path := "/api/" ++ routePre ++ "/{id}",
            viewName := name, viewType := "viewset", filePath := fp } ]) ∧
    (∀ (name routePre : String) (viewSets : List (String × String)),
      viewSets.lookup name = none →
      DjangoRestExtractor.generateViewSetRoutes [(name, routePre)] viewSets = []) ∧
    (∀ (reg : String × String) (regs : List (String × String))
        (viewSets : List (String × String)),
      DjangoRestExtractor.generateViewSetRoutes (reg :: regs) viewSets =
        DjangoRestExtractor.generateViewSetRoutes [reg] viewSets ++
          DjangoRestExtractor.generateViewSetRoutes regs viewSets) := by
  refine ⟨?_, ?_, ?_⟩
  · intro name routePre fp viewSets h
    simp [DjangoRestExtractor.generateViewSetRoutes,
      DjangoRestExtractor.VIEWSET_ACTIONS_ModelViewSet, h]
  · intro name routePre viewSets h
    simp [DjangoRestExtractor.generateViewSetRoutes, h]
  · intro reg regs viewSets
    simp [DjangoRestExtractor.generateViewSetRoutes]

/-- **C9** (witness): a discovered ViewSet registration yields the six
routes, at a concrete registration. -/
theorem C9_witness :
    DjangoRestExtractor.generateViewSetRoutes [("UserViewSet", "users")]
        [("UserViewSet", "views.py")] =
      [ { method := HttpMethod.GET, path := "/api/users",
          viewName := "UserViewSet", viewType := "viewset", filePath := "views.py" },
        { method := HttpMethod.POST, path := "/api/users",
          viewName := "UserViewSet", viewType := "viewset", filePath := "views.py" },
        { method := HttpMethod.GET, path := "/api/users/{id}",
          viewName := "UserViewSet", viewType := "viewset", filePath := "views.py" },
        { method := HttpMethod.PUT, path := "/api/users/{id}",
          viewName := "UserViewSet", viewType := "viewset", filePath := "views.py" },
        { method := HttpMethod.PATCH, path := "/api/users/{id}",
          viewName := "UserViewSet", viewType := "viewset", filePath := "views.py" },
        { method := HttpMethod.DELETE, path := "/api/users/{id}",
          viewName := "UserViewSet", viewType := "viewset", filePath := "views.py" } ] := by
  rw [C9_viewset_full_crud_synthesis.1 "UserViewSet" "users" "views.py"
    [("UserViewSet", "views.py")] (by decide)]
  rfl

/-- **C1** (counterexample).  An OpenAPI operation on the path
`/users/{id}` declaring no parameters at all is emitted with an empty
parameter list: the `{id}` placeholder has no corresponding
`location = path` parameter, so the path-parameter completeness
invariant fails for the OpenAPI extractor. -/
theorem C1_counterexample :
    (OpenApiExtractor.createEndpoint "/users/{id}" HttpMethod.GET
        { responses := [("200", { description := "ok" })] } []).parameters = [] ∧
      BaseExtractor.extractPathParams
        (OpenApiExtractor.createEndpoint "/users/{id}" HttpMethod.GET
          { responses := [("200", { description := "ok" })] } []).path = ["id"] := by
  exact ⟨rfl, rfl⟩

/-- **C3** (counterexample).  A Python project with two files that each
contain a FastAPI import makes `detectPython` return the raw
accumulated score 120 as its confidence, and the overall `detect`
result then reports confidence 120 > 100. -/
theorem C3_counterexample :
    (ProjectDetector.detect true none
        (ProjectDetector.detectPython true false
          [ { hasFastApiImport := true }, { hasFastApiImport := true } ] [] [])
        none none).confidence = 120 := by
  decide

/-- **C5** (counterexample).  With a validated spec file *and* a strong
FastAPI code base in the same directory, the Python detector still
runs, scores an uncapped 120, and beats the openapi result's 100 in
the confidence-descending sort: `detect` returns `fastapi`, not
`openapi` — so the spec's short-circuit description is false. -/
theorem C5_counterexample :
    (ProjectDetector.detect true
        (ProjectDetector.detectOpenApi true)
        (ProjectDetector.detectPython true false
          [ { hasFastApiImport := true }, { hasFastApiImport := true } ] [] [])
        none none).type = ProjectType.FASTAPI := by
  decide

theorem mem_insertDescBy {α : Type} (key : α → Nat) (x : α) (l : List α) (y : α) :
    y ∈ ProjectDetector.insertDescBy key x l ↔ y = x ∨ y ∈ l := by
  induction l with
  | nil => simp [ProjectDetector.insertDescBy]
  | cons a tl ih =>
    rw [ProjectDetector.insertDescBy]
    by_cases h : key a > key x
    · rw [if_pos h]
      simp only [List.mem_cons, ih]
      tauto
    · rw [if_neg h]
      simp only [List.mem_cons]

theorem mem_sortDescBy {α : Type} (key : α → Nat) (l : List α) (y : α) :
    y ∈ ProjectDetector.sortDescBy key l ↔ y ∈ l := by
  induction l with
  | nil => simp [ProjectDetector.sortDescBy]
  | cons a tl ih =>
    rw [ProjectDetector.sortDescBy, mem_insertDescBy, ih]
    simp only [List.mem_cons]

theorem insertDescBy_eq_cons {α : Type} (key : α → Nat) (x : α) (l : List α)
    (h : ∀ y ∈ l, key y ≤ key x) : ProjectDetector.insertDescBy key x l = x :: l := by
  cases l with
  | nil => rfl
  | cons a tl =>
    rw [ProjectDetector.insertDescBy,
      if_neg (by have := h a (List.mem_cons_self a tl); omega)]

theorem sortDescBy_three_head {α : Type} (key : α → Nat) (x y z : α) :
    ∃ w t, ProjectDetector.sortDescBy key [x, y, z] = w :: t ∧
      key w = max (key x) (max (key y) (key z)) ∧ (w = x ∨ w = y ∨ w = z) := by
  simp only [ProjectDetector.sortDescBy, ProjectDetector.insertDescBy]
  split_ifs <;>
    (try simp only [ProjectDetector.insertDescBy]) <;>
    (try split_ifs) <;>
    exact ⟨_, _, rfl, by omega, by tauto⟩

/-- **C3** (amended).  The Java and .NET detection branches cap their
returned confidence with `Math.min(score, 100)`, but the Python branch
returns the winning framework's raw accumulated score as the
confidence, without capping — so the detector's confidence is a
non-negative integer that can exceed 100 on Python projects (see
`C3_counterexample`, where it is 120). -/
theorem C3_python_confidence_uncapped_java_dotnet_capped :
    (∀ (sig : ProjectDetector.JavaSignals) (r : DetectionResult),
      ProjectDetector.detectJava sig = some r → r.confidence ≤ 100) ∧
    (∀ (sig : ProjectDetector.DotNetSignals) (r : DetectionResult),
      ProjectDetector.detectDotNet sig = some r → r.confidence ≤ 100) ∧
    (∀ (proceed hasManagePy : Bool) (fa : List ProjectDetector.FastApiFileSignal)
        (fl : List ProjectDetector.FlaskFileSignal)
        (dj : List ProjectDetector.DjangoFileSignal) (r : DetectionResult),
      ProjectDetector.detectPython proceed hasManagePy fa fl dj = some r →
        r.confidence = max (ProjectDetector.detectFastApi fa).1
          (max (ProjectDetector.detectFlask fl).1
            (ProjectDetector.detectDjango hasManagePy dj).1)) := by
  refine ⟨?_, ?_, ?_⟩
  · intro sig r h
    simp only [ProjectDetector.detectJava] at h
    split_ifs at h <;>
      first
        | exact Option.noConfusion h
        | (injection h with h'; subst h'; exact Nat.min_le_right _ _)
  · intro sig r h
    simp only [ProjectDetector.detectDotNet] at h
    split_ifs at h <;>
      first
        | exact Option.noConfusion h
        | (injection h with h'; subst h'; exact Nat.min_le_right _ _)
  · intro proceed hasManagePy fa fl dj r h
    by_cases hp : proceed = true
    · subst hp
      obtain ⟨w, t, hsort, hw, _⟩ := sortDescBy_three_head (fun s => s.2)
        (ProjectType.FASTAPI, (ProjectDetector.detectFastApi fa).1)
        (ProjectType.FLASK, (ProjectDetector.detectFlask fl).1)
        (ProjectType.DJANGO_REST, (ProjectDetector.detectDjango hasManagePy dj).1)
      simp only [ProjectDetector.detectPython] at h
      rw [if_neg (by simp)] at h
      rw [hsort] at h
      have h2 : (if w.2 ≥ ProjectDetector.MIN_CONFIDENCE_THRESHOLD then
          some ({ type := w.1, confidence := w.2 } : DetectionResult) else none) = some r := h
      by_cases hth : w.2 ≥ ProjectDetector.MIN_CONFIDENCE_THRESHOLD
      · rw [if_pos hth] at h2
        injection h2 with h'
        subst h'
        exact hw
      · rw [if_neg hth] at h2
        cases h2
    · have hpf : proceed = false := by revert hp; cases proceed <;> simp
      subst hpf
      simp only [ProjectDetector.detectPython] at h
      rw [if_pos (by simp)] at h
      cases h

/-- **C3** (witness): the Java cap at a concrete project, and the
Python raw score at the counterexample project. -/
theorem C3_witness :
    (∀ r, ProjectDetector.detectJava
        { hasMaven := true, mavenHasSpringBoot := true,
          controllerEndpointCounts := [3, 4] } = some r → r.confidence ≤ 100) ∧
    (∀ r, ProjectDetector.detectPython true false
        [ { hasFastApiImport := true }, { hasFastApiImport := true } ] [] [] = some r →
      r.confidence = 120) := by
  constructor
  · intro r h
    exact C3_python_confidence_uncapped_java_dotnet_capped.1 _ r h
  · intro r h
    have := C3_python_confidence_uncapped_java_dotnet_capped.2.2 true false
      [ { hasFastApiImport := true }, { hasFastApiImport := true } ] [] [] r h
    rwa [show max (ProjectDetector.detectFastApi
        [ { hasFastApiImport := true }, { hasFastApiImport := true } ]).1
        (max (ProjectDetector.detectFlask []).1 (ProjectDetector.detectDjango false []).1) =
        120 from by decide] at this

/-- **C5** (amended).  The spec-file check does not short-circuit: the
openapi result is collected alongside the Python, Java and .NET
results, which all still run, and the winner is the head of the
stable confidence-descending sort.  When a spec file validates, its
result has confidence exactly 100 and is first in the list, so it wins
whenever no other detector reports a confidence above 100 (the
uncapped Python branch is the only one that can; see
`C5_counterexample`). -/
theorem C5_spec_result_wins_when_others_at_most_100
    (py ja dn : Option DetectionResult)
    (h : ∀ x ∈ py.toList ++ ja.toList ++ dn.toList, x.confidence ≤ 100) :
    ProjectDetector.detectOpenApi true =
      some { type := ProjectType.OPENAPI, confidence := 100 } ∧
    ProjectDetector.detect true (ProjectDetector.detectOpenApi true) py ja dn =
      { type := ProjectType.OPENAPI, confidence := 100 } := by
  constructor
  · rfl
  · show (match ProjectDetector.sortDescBy (fun r => r.confidence)
        (({ type := ProjectType.OPENAPI, confidence := 100 } : DetectionResult) ::
          (py.toList ++ ja.toList ++ dn.toList)) with
      | [] => ProjectDetector.createUnknownResult ["Desteklenen proje tipi bulunamadı"]
      | best :: _ =>
        if best.confidence < ProjectDetector.MIN_CONFIDENCE_THRESHOLD then
          ProjectDetector.createUnknownResult ["Algılama skoru minimum eşiğin altında"]
        else best) =
      ({ type := ProjectType.OPENAPI, confidence := 100 } : DetectionResult)
    rw [show ProjectDetector.sortDescBy (fun r => r.confidence)
        (({ type := ProjectType.OPENAPI, confidence := 100 } : DetectionResult) ::
          (py.toList ++ ja.toList ++ dn.toList)) =
        ({ type := ProjectType.OPENAPI, confidence := 100 } : DetectionResult) ::
          ProjectDetector.sortDescBy (fun r => r.confidence)
            (py.toList ++ ja.toList ++ dn.toList) from by
      rw [ProjectDetector.sortDescBy]
      exact insertDescBy_eq_cons _ _ _
        (fun y hy => h y ((mem_sortDescBy _ _ y).mp hy))]
    rfl

/-- **C8** (confirmed).  The FastAPI detection score is monotonic
non-decreasing in the route-decorator match counts: for two file-signal
lists that agree on every other signal, pointwise larger decorator
counts never decrease the score; and the endpoint-count bonus
saturates at the `MULTIPLE_ENDPOINTS` cap (here at count 16, since the
per-framework factor is 5). -/
theorem C8_fastapi_score_monotone :
    (∀ (f1 f2 : List ProjectDetector.FastApiFileSignal),
      List.Forall₂ (fun a b =>
        a.hasFastApiImport = b.hasFastApiImport ∧
          a.hasFastApiInstance = b.hasFastApiInstance ∧
          a.hasApiRouter = b.hasApiRouter ∧
          a.routeDecoratorCount ≤ b.routeDecoratorCount) f1 f2 →
      (ProjectDetector.detectFastApi f1).1 ≤ (ProjectDetector.detectFastApi f2).1) ∧
    (∀ c : Nat, (ProjectDetector.detectFastApi [{ routeDecoratorCount := c }]).1 ≤
      ProjectDetector.MULTIPLE_ENDPOINTS) ∧
    (∀ c : Nat, 16 ≤ c →
      (ProjectDetector.detectFastApi [{ routeDecoratorCount := c }]).1 =
        ProjectDetector.MULTIPLE_ENDPOINTS) := by
  refine ⟨?_, ?_, ?_⟩
  · intro f1 f2 hF
    have hsums : (f1.map (fun f =>
          (if f.hasFastApiImport then ProjectDetector.CODE_PATTERN else 0) +
          (if f.hasFastApiInstance then ProjectDetector.FRAMEWORK_FILE else 0) +
          (if f.hasApiRouter then ProjectDetector.PROJECT_FILE else 0))).sum =
        (f2.map (fun f =>
          (if f.hasFastApiImport then ProjectDetector.CODE_PATTERN else 0) +
          (if f.hasFastApiInstance then ProjectDetector.FRAMEWORK_FILE else 0) +
          (if f.hasApiRouter then ProjectDetector.PROJECT_FILE else 0))).sum ∧
        (f1.map (fun f => f.routeDecoratorCount)).sum ≤
          (f2.map (fun f => f.routeDecoratorCount)).sum := by
      induction hF with
      | nil => exact ⟨rfl, le_refl 0⟩
      | cons h hrest ih =>
        obtain ⟨h1, h2, h3, h4⟩ := h
        simp only [List.map_cons, List.sum_cons]
        exact ⟨by rw [h1, h2, h3, ih.1], Nat.add_le_add h4 ih.2⟩
    simp only [ProjectDetector.detectFastApi]
    obtain ⟨he, hc⟩ := hsums
    rw [he]
    have hb : (if (f1.map (fun f => f.routeDecoratorCount)).sum > 0 then
          min ProjectDetector.MULTIPLE_ENDPOINTS
            ((f1.map (fun f => f.routeDecoratorCount)).sum * 5) else 0) ≤
        (if (f2.map (fun f => f.routeDecoratorCount)).sum > 0 then
          min ProjectDetector.MULTIPLE_ENDPOINTS
            ((f2.map (fun f => f.routeDecoratorCount)).sum * 5) else 0) := by
      simp only [ProjectDetector.MULTIPLE_ENDPOINTS]
      split_ifs <;> omega
    exact Nat.add_le_add (le_refl _) hb
  · intro c
    simp only [ProjectDetector.detectFastApi, ProjectDetector.MULTIPLE_ENDPOINTS,
      ProjectDetector.CODE_PATTERN, ProjectDetector.FRAMEWORK_FILE,
      ProjectDetector.PROJECT_FILE, List.map_cons, List.map_nil, List.sum_cons,
      List.sum_nil]
    split_ifs <;> first | omega | simp_all
  · intro c hc
    simp only [ProjectDetector.detectFastApi, ProjectDetector.MULTIPLE_ENDPOINTS,
      ProjectDetector.CODE_PATTERN, ProjectDetector.FRAMEWORK_FILE,
      ProjectDetector.PROJECT_FILE, List.map_cons, List.map_nil, List.sum_cons,
      List.sum_nil]
    split_ifs <;> first | omega | simp_all

/-- **C8** (witness): raising a file's decorator count from 2 to 5
does not decrease the score, and a count of 20 saturates the bonus. -/
theorem C8_witness :
    (ProjectDetector.detectFastApi
        [{ hasFastApiImport := true, routeDecoratorCount := 2 }]).1 ≤
      (ProjectDetector.detectFastApi
        [{ hasFastApiImport := true, routeDecoratorCount := 5 }]).1 ∧
    (ProjectDetector.detectFastApi [{ routeDecoratorCount := 20 }]).1 =
      ProjectDetector.MULTIPLE_ENDPOINTS :=
  ⟨C8_fastapi_score_monotone.1 _ _
      (List.Forall₂.cons ⟨rfl, rfl, rfl, by decide⟩ List.Forall₂.nil),
    C8_fastapi_score_monotone.2.2 20 (by omega)⟩

/-- **C5** (witness): with a validated spec and a capped Java result,
`detect` returns the openapi result. -/
theorem C5_witness :
    ProjectDetector.detect true (ProjectDetector.detectOpenApi true) none
        (some { type := ProjectType.SPRING_BOOT, confidence := 100 }) none =
      { type := ProjectType.OPENAPI, confidence := 100 } :=
  (C5_spec_result_wins_when_others_at_most_100 none
    (some { type := ProjectType.SPRING_BOOT, confidence := 100 }) none
    (by intro x hx; simp at hx; subst hx; exact le_refl 100)).2

theorem mapSet_endpoints_empty (m : List (String × OpenApiExtractor.TagGroup))
    (k : String) (v : OpenApiExtractor.TagGroup)
    (hm : ∀ pe ∈ m, pe.2.endpoints = ([] : List ApiEndpoint))
    (hv : v.endpoints = []) :
    ∀ pe ∈ OpenApiExtractor.mapSet m k v, pe.2.endpoints = [] := by
  intro pe hpe
  simp only [OpenApiExtractor.mapSet] at hpe
  split at hpe
  · obtain ⟨qe, hqe, hq⟩ := List.mem_map.mp hpe
    by_cases hk : qe.1 = k
    · rw [if_pos hk] at hq
      rw [← hq]
      exact hv
    · rw [if_neg hk] at hq
      rw [← hq]
      exact hm qe hqe
  · rcases List.mem_append.mp hpe with h | h
    · exact hm pe h
    · simp only [List.mem_singleton] at h
      rw [h]
      exact hv

theorem seedTags_endpoints_empty (ts : List OpenApiExtractor.OpenApiTag) :
    ∀ (m : List (String × OpenApiExtractor.TagGroup)),
      (∀ pe ∈ m, pe.2.endpoints = ([] : List ApiEndpoint)) →
      ∀ pe ∈ ts.foldl (fun m tag => OpenApiExtractor.mapSet m tag.name
          { description := tag.description, endpoints := [] }) m,
        pe.2.endpoints = [] := by
  induction ts with
  | nil =>
    intro m hm
    simpa using hm
  | cons t ts ih =>
    intro m hm
    rw [List.foldl_cons]
    exact ih _ (mapSet_endpoints_empty m t.name _ hm rfl)

theorem mapUpdate_invariant (t : String) (e : ApiEndpoint)
    (ht : t = OpenApiExtractor.firstTagName e)
    (m1 : List (String × OpenApiExtractor.TagGroup)) (processed : List ApiEndpoint)
    (h1 : ∀ pe ∈ m1, pe.2.endpoints =
      processed.filter (fun x => decide (OpenApiExtractor.firstTagName x = pe.1)))
    (h2 : ∀ x ∈ processed, ∃ v, (OpenApiExtractor.firstTagName x, v) ∈ m1)
    (h3 : ∃ v, (t, v) ∈ m1) :
    (∀ pe ∈ m1.map (fun p =>
        if p.1 = t then (p.1, { p.2 with endpoints := p.2.endpoints ++ [e] }) else p),
      pe.2.endpoints =
        (processed ++ [e]).filter
          (fun x => decide (OpenApiExtractor.firstTagName x = pe.1))) ∧
    (∀ x ∈ processed ++ [e], ∃ v, (OpenApiExtractor.firstTagName x, v) ∈
      m1.map (fun p =>
        if p.1 = t then (p.1, { p.2 with endpoints := p.2.endpoints ++ [e] }) else p)) := by
  constructor
  · intro pe hpe
    obtain ⟨qe, hqe, hq⟩ := List.mem_map.mp hpe
    by_cases hk : qe.1 = t
    · rw [if_pos hk] at hq
      rw [← hq]
      show qe.2.endpoints ++ [e] =
        (processed ++ [e]).filter
          (fun x => decide (OpenApiExtractor.firstTagName x = qe.1))
      rw [List.filter_append, h1 qe hqe]
      congr 1
      have hte : OpenApiExtractor.firstTagName e = qe.1 := by rw [hk, ht]
      simp [List.filter_cons, hte]
    · rw [if_neg hk] at hq
      rw [← hq]
      rw [List.filter_append, h1 qe hqe]
      have hte : ¬ (OpenApiExtractor.firstTagName e = qe.1) := by
        intro hcontra
        exact hk (by rw [← hcontra, ht])
      simp [List.filter_cons, hte]
  · intro x hx
    rcases List.mem_append.mp hx with hx' | hx'
    · obtain ⟨v, hv⟩ := h2 x hx'
      by_cases hxt : OpenApiExtractor.firstTagName x = t
      · exact ⟨{ v with endpoints := v.endpoints ++ [e] },
          List.mem_map.mpr ⟨(OpenApiExtractor.firstTagName x, v), hv, by simp [hxt]⟩⟩
      · exact ⟨v, List.mem_map.mpr ⟨(OpenApiExtractor.firstTagName x, v), hv,
          by simp [hxt]⟩⟩
    · simp only [List.mem_singleton] at hx'
      rw [hx']
      obtain ⟨v, hv⟩ := h3
      exact ⟨{ v with endpoints := v.endpoints ++ [e] },
        List.mem_map.mpr ⟨(t, v), hv, by simp [ht]⟩⟩

theorem addEndpointToTagMap_invariant (m : List (String × OpenApiExtractor.TagGroup))
    (processed : List ApiEndpoint) (e : ApiEndpoint)
    (hC : ∀ pe ∈ m, pe.2.endpoints =
      processed.filter (fun x => decide (OpenApiExtractor.firstTagName x = pe.1)))
    (hK : ∀ x ∈ processed, ∃ v, (OpenApiExtractor.firstTagName x, v) ∈ m) :
    (∀ pe ∈ OpenApiExtractor.addEndpointToTagMap m e, pe.2.endpoints =
      (processed ++ [e]).filter
        (fun x => decide (OpenApiExtractor.firstTagName x = pe.1))) ∧
    (∀ x ∈ processed ++ [e], ∃ v, (OpenApiExtractor.firstTagName x, v) ∈
      OpenApiExtractor.addEndpointToTagMap m e) := by
  by_cases hc : m.any (fun p => p.1 = OpenApiExtractor.firstTagName e) = true
  · have heq : OpenApiExtractor.addEndpointToTagMap m e =
        m.map (fun p =>
          if p.1 = OpenApiExtractor.firstTagName e then
            (p.1, { p.2 with endpoints := p.2.endpoints ++ [e] })
          else p) := by
      simp only [OpenApiExtractor.addEndpointToTagMap]
      rw [if_pos hc]
    rw [heq]
    apply mapUpdate_invariant (OpenApiExtractor.firstTagName e) e rfl m processed hC hK
    obtain ⟨p, hp, hpt⟩ := List.any_eq_true.mp hc
    refine ⟨p.2, ?_⟩
    have : p.1 = OpenApiExtractor.firstTagName e := by simpa using hpt
    rw [← this]
    exact hp
  · have heq : OpenApiExtractor.addEndpointToTagMap m e =
        (m ++ [(OpenApiExtractor.firstTagName e,
            ({ description := none, endpoints := [] } : OpenApiExtractor.TagGroup))]).map
          (fun p =>
            if p.1 = OpenApiExtractor.firstTagName e then
              (p.1, { p.2 with endpoints := p.2.endpoints ++ [e] })
            else p) := by
      simp only [OpenApiExtractor.addEndpointToTagMap]
      rw [if_neg hc]
    rw [heq]
    have hnot : ∀ x ∈ processed, ¬ (OpenApiExtractor.firstTagName x =
        OpenApiExtractor.firstTagName e) := by
      intro x hx hcontra
      obtain ⟨v, hv⟩ := hK x hx
      rw [hcontra] at hv
      exact hc (List.any_eq_true.mpr ⟨_, hv, by simp⟩)
    apply mapUpdate_invariant (OpenApiExtractor.firstTagName e) e rfl _ processed
    · intro pe hpe
      rcases List.mem_append.mp hpe with h | h
      · exact hC pe h
      · simp only [List.mem_singleton] at h
        rw [h]
        show ([] : List ApiEndpoint) = processed.filter
          (fun x => decide (OpenApiExtractor.firstTagName x =
            OpenApiExtractor.firstTagName e))
        rw [eq_comm, List.filter_eq_nil_iff]
        intro x hx
        simpa using hnot x hx
    · intro x hx
      obtain ⟨v, hv⟩ := hK x hx
      exact ⟨v, List.mem_append.mpr (Or.inl hv)⟩
    · exact ⟨{ description := none, endpoints := [] },
        List.mem_append.mpr (Or.inr (List.mem_singleton.mpr rfl))⟩

theorem foldl_addEndpoint_invariant (endpoints : List ApiEndpoint) :
    ∀ (m : List (String × OpenApiExtractor.TagGroup)) (processed : List ApiEndpoint),
      (∀ pe ∈ m, pe.2.endpoints =
        processed.filter (fun x => decide (OpenApiExtractor.firstTagName x = pe.1))) →
      (∀ x ∈ processed, ∃ v, (OpenApiExtractor.firstTagName x, v) ∈ m) →
      (∀ pe ∈ endpoints.foldl OpenApiExtractor.addEndpointToTagMap m,
        pe.2.endpoints = (processed ++ endpoints).filter
          (fun x => decide (OpenApiExtractor.firstTagName x = pe.1))) ∧
      (∀ x ∈ processed ++ endpoints, ∃ v, (OpenApiExtractor.firstTagName x, v) ∈
        endpoints.foldl OpenApiExtractor.addEndpointToTagMap m) := by
  induction endpoints with
  | nil =>
    intro m processed hC hK
    constructor
    · intro pe hpe
      simpa using hC pe (by simpa using hpe)
    · intro x hx
      simpa using hK x (by simpa using hx)
  | cons e rest ih =>
    intro m processed hC hK
    obtain ⟨s1, s2⟩ := addEndpointToTagMap_invariant m processed e hC hK
    have hrec := ih (OpenApiExtractor.addEndpointToTagMap m e) (processed ++ [e]) s1 s2
    constructor
    · intro pe hpe
      have h := hrec.1 pe (by simpa using hpe)
      simpa [List.append_assoc] using h
    · intro x hx
      have h := hrec.2 x (by simpa [List.append_assoc] using hx)
      simpa using h

/-- **C7** (confirmed).  In the OpenAPI grouping step, every group's
endpoint list is exactly the endpoints whose first declared tag equals
the group name (endpoints with no tags fall into `default`, via
`firstTagName`); every group in the output is non-empty, so a declared
tag with zero endpoints is dropped; and every endpoint lands in the
group named by its first tag. -/
theorem C7_grouping_by_first_tag (endpoints : List ApiEndpoint)
    (tags : Option (List OpenApiExtractor.OpenApiTag)) :
    (∀ g ∈ OpenApiExtractor.groupEndpointsByTag endpoints tags,
      g.endpoints = endpoints.filter
        (fun e => decide (OpenApiExtractor.firstTagName e = g.name)) ∧
      g.endpoints ≠ []) ∧
    (∀ e ∈ endpoints, ∃ g ∈ OpenApiExtractor.groupEndpointsByTag endpoints tags,
      g.name = OpenApiExtractor.firstTagName e ∧ e ∈ g.endpoints) := by
  have hempty : ∀ pe ∈ OpenApiExtractor.mapSet
      ((tags.getD []).foldl (fun m tag => OpenApiExtractor.mapSet m tag.name
        { description := tag.description, endpoints := [] }) [])
      "default" { description := none, endpoints := [] },
      pe.2.endpoints = ([] : List ApiEndpoint) :=
    mapSet_endpoints_empty _ _ _
      (seedTags_endpoints_empty _ [] (by intro pe hpe; simp at hpe)) rfl
  have main := foldl_addEndpoint_invariant endpoints
    (OpenApiExtractor.mapSet
      ((tags.getD []).foldl (fun m tag => OpenApiExtractor.mapSet m tag.name
        { description := tag.description, endpoints := [] }) [])
      "default" { description := none, endpoints := [] }) []
    (fun pe hpe => by rw [hempty pe hpe]; rfl)
    (by intro x hx; simp at hx)
  constructor
  · intro g hg
    simp only [OpenApiExtractor.groupEndpointsByTag] at hg
    obtain ⟨pe, hpe, hre⟩ := List.mem_map.mp hg
    have hf := List.mem_filter.mp hpe
    constructor
    · rw [← hre]
      show pe.2.endpoints = endpoints.filter
        (fun e => decide (OpenApiExtractor.firstTagName e = pe.1))
      have h := main.1 pe hf.1
      simpa using h
    · rw [← hre]
      show pe.2.endpoints ≠ []
      simpa using hf.2
  · intro e he
    obtain ⟨v, hv⟩ := main.2 e (by simpa using he)
    have hve := main.1 (OpenApiExtractor.firstTagName e, v) hv
    have h2 : v.endpoints = endpoints.filter
        (fun x => decide (OpenApiExtractor.firstTagName x =
          OpenApiExtractor.firstTagName e)) := by
      simpa using hve
    have hein : e ∈ v.endpoints := by
      rw [h2]
      exact List.mem_filter.mpr ⟨he, by simp⟩
    refine ⟨{ name := OpenApiExtractor.firstTagName e,
              description := v.description,
              endpoints := v.endpoints }, ?_, rfl, hein⟩
    simp only [OpenApiExtractor.groupEndpointsByTag]
    exact List.mem_map.mpr ⟨(OpenApiExtractor.firstTagName e, v),
      List.mem_filter.mpr ⟨hv, by simpa using List.ne_nil_of_mem hein⟩, rfl⟩

/-- **C7** (witness): a document with declared tags `users` (used) and
`unused` (no endpoints), one tagged endpoint and one untagged endpoint:
the output has a `users` group and a `default` group, no `unused`
group, and each endpoint sits in its group. -/
theorem C7_witness :
    (∀ g ∈ OpenApiExtractor.groupEndpointsByTag
        [ { method := HttpMethod.GET, path := "/users", tags := some ["users"] },
          { method := HttpMethod.GET, path := "/health" } ]
        (some [ { name := "users" }, { name := "unused" } ]),
      g.endpoints ≠ []) ∧
    (OpenApiExtractor.groupEndpointsByTag
        [ { method := HttpMethod.GET, path := "/users", tags := some ["users"] },
          { method := HttpMethod.GET, path := "/health" } ]
        (some [ { name := "users" }, { name := "unused" } ])).map
      (fun g => g.name) = ["users", "default"] :=
  ⟨fun g hg => ((C7_grouping_by_first_tag
      [ { method := HttpMethod.GET, path := "/users", tags := some ["users"] },
        { method := HttpMethod.GET, path := "/health" } ]
      (some [ { name := "users" }, { name := "unused" } ])).1 g hg).2,
    by decide⟩

/-- **C1** (amended).  The path-parameter completeness invariant holds
for the FastAPI extractor: every `location = path` parameter it emits
is `required = true`, and for every name the number of emitted
`location = path` parameters equals the number of occurrences of that
name among the `{name}` placeholders of the prefix-resolved route path
(so each distinct placeholder has exactly one such parameter).  The
OpenAPI extractor, by contrast, emits exactly the declared
(path-level ++ operation-level) parameters run through
`convertParameter` — it does not synthesize a missing path parameter,
force `required = true`, or deduplicate (see `C1_counterexample`). -/
theorem C1_path_parameter_completeness_fastapi_only :
    (∀ (routers : List (String × String)) (models : List String)
        (route : FastApiExtractor.ExtractedRoute),
      (∀ p ∈ (FastApiExtractor.routeToEndpoint routers models route).parameters,
        p.location = ParameterLocation.PATH → p.required = true) ∧
      (∀ n : String,
        ((FastApiExtractor.routeToEndpoint routers models route).parameters.countP
          (fun p => decide (p.location = ParameterLocation.PATH ∧ p.name = n))) =
        ((BaseExtractor.extractPathParams
          (FastApiExtractor.fullPathOf routers route)).count n))) ∧
    (∀ (path : String) (method : HttpMethod)
        (operation : OpenApiExtractor.OpenApiOperation)
        (pathParams : List OpenApiExtractor.OpenApiParameter),
      (OpenApiExtractor.createEndpoint path method operation pathParams).parameters =
        (pathParams ++ operation.parameters.getD []).map
          OpenApiExtractor.convertParameter) := by
  constructor
  · intro routers models route
    constructor
    · intro p hp hloc
      simp only [FastApiExtractor.routeToEndpoint] at hp
      rcases List.mem_append.mp hp with h1 | h2
      · obtain ⟨nm, _, rfl⟩ := List.mem_map.mp h1
        rfl
      · exfalso
        obtain ⟨q, _, hq⟩ := List.mem_filterMap.mp h2
        split_ifs at hq
        injection hq with h'
        rw [← h'] at hloc
        exact absurd hloc (by simp)
    · intro n
      simp only [FastApiExtractor.routeToEndpoint]
      rw [List.countP_append]
      have hq0 : List.countP
          (fun p : ApiParameter =>
            decide (p.location = ParameterLocation.PATH ∧ p.name = n))
          (route.funcParams.filterMap (fun p =>
            (if (BaseExtractor.extractPathParams
                (FastApiExtractor.fullPathOf routers route)).contains p.name then none
            else if p.name = "request" ∨ p.name = "db" ∨ p.name = "session" then none
            else if models.contains p.type then none
            else some
              { name := p.name
                location := ParameterLocation.QUERY
                required := !p.hasDefault
                schema := { type := FastApiExtractor.pythonTypeToSchemaType p.type } } :
              Option ApiParameter))) =
          0 := by
        rw [List.countP_eq_zero]
        intro p hp
        obtain ⟨q, _, hq⟩ := List.mem_filterMap.mp hp
        split_ifs at hq
        injection hq with h'
        rw [← h']
        simp
      rw [hq0, Nat.add_zero, List.countP_map]
      rw [List.count]
      apply List.countP_congr
      intro nm _
      simp [Function.comp]
  · intro path method operation pathParams
    rfl

/-- **C1** (witness): on the fixture route, the `item_id` placeholder
yields exactly one path parameter, that parameter is required, and the
placeholder count is 1. -/
theorem C1_witness :
    ((FastApiExtractor.routeToEndpoint [("router", "/api")] []
        FastApiExtractor.sampleRoute).parameters.countP
      (fun p => decide (p.location = ParameterLocation.PATH ∧ p.name = "item_id"))) =
      ((BaseExtractor.extractPathParams
        (FastApiExtractor.fullPathOf [("router", "/api")]
          FastApiExtractor.sampleRoute)).count "item_id") ∧
    (BaseExtractor.extractPathParams
      (FastApiExtractor.fullPathOf [("router", "/api")]
        FastApiExtractor.sampleRoute)).count "item_id" = 1 ∧
    ({ name := "item_id", location := ParameterLocation.PATH, required := true,
        schema := { type := SchemaType.INTEGER } } : ApiParameter).required = true :=
  ⟨(C1_path_parameter_completeness_fastapi_only.1 [("router", "/api")] []
      FastApiExtractor.sampleRoute).2 "item_id",
    by decide,
    (C1_path_parameter_completeness_fastapi_only.1 [("router", "/api")] []
      FastApiExtractor.sampleRoute).1
      { name := "item_id", location := ParameterLocation.PATH, required := true,
        schema := { type := SchemaType.INTEGER } }
      (by decide) rfl⟩

end Apigen
